import Mathlib

set_option maxHeartbeats 1000000

/-!
Verification of the result-lookup and presentation contract of
`src/streamlit_novelty.py`, a Streamlit dashboard that reads a precomputed
`results.json` and a directory of visualization PNGs.

The Python program is embedded shallowly:
* JSON values are modelled by the inductive `JVal` (Python dicts become
  ordered association lists, numbers exact rationals);
* the file system is modelled by a `World` record (directory existence, the
  directory listing, the state of `results.json`, and an existence predicate
  for the remaining files);
* fallible Python operations (`d[k]`, `v.get`, iteration, `json.load`)
  return `Except String`, the error carrying the exception class;
* the top-level page script (lines 94-186) becomes the pure `render`
  function producing the ordered trace of display and file-system events.
-/

/-- JSON values as produced by Python's `json.load`: objects are ordered
association lists with unique keys (Python dicts preserve insertion order),
numbers are modelled as exact rationals. -/
inductive JVal where
  | jnull : JVal
  | jbool : Bool → JVal
  | jnum : ℚ → JVal
  | jstr : String → JVal
  | jarr : List JVal → JVal
  | jobj : List (String × JVal) → JVal

/-- Python truthiness of a parsed JSON value (used by `if results_data:`):
falsy values are `null`, `False`, `0`, `""`, `[]` and `{}`. -/
def JVal.truthy : JVal → Bool
  | .jnull => false
  | .jbool b => b
  | .jnum q => q != 0
  | .jstr s => s != ""
  | .jarr xs => !xs.isEmpty
  | .jobj fs => !fs.isEmpty

/-- Python `==` between a parsed JSON value and a `str` (line 146,
`r['file'] == selected_file`): `True` exactly for an equal string, `False`
for every other value (no exception, no coercion). -/
def JVal.eqStr : JVal → String → Bool
  | .jstr s, t => s == t
  | _, _ => false

/-- Python's containment test `k in v` for a string `k`: key membership for
dicts, element membership for lists, substring test for strings, and a
`TypeError` for the remaining values. -/
def JVal.hasKey : JVal → String → Except String Bool
  | .jobj fs, k => .ok (fs.any (fun p => p.1 == k))
  | .jarr xs, k => .ok (xs.any (fun v => JVal.eqStr v k))
  | .jstr s, k => .ok (decide (k.data <:+: s.data))
  | .jbool _, _ => .error "TypeError: argument of type bool is not iterable"
  | .jnum _, _ => .error "TypeError: argument of type number is not iterable"
  | .jnull, _ => .error "TypeError: argument of type NoneType is not iterable"

/-- Python subscription `v[k]` for a string key `k`: dict lookup raising
`KeyError` when the key is absent, `TypeError` on any non-dict value. -/
def JVal.getItem : JVal → String → Except String JVal
  | .jobj fs, k =>
    match fs.find? (fun p => p.1 == k) with
    | some p => .ok p.2
    | none => .error ("KeyError: " ++ k)
  | _, _ => .error "TypeError: value is not subscriptable by a string"

/-- Python `v.get(k, default)` (lines 119-123 and 155): `none` signals that
the default is to be used; a non-dict receiver raises `AttributeError`. -/
def JVal.pyGet : JVal → String → Except String (Option JVal)
  | .jobj fs, k => .ok ((fs.find? (fun p => p.1 == k)).map (fun p => p.2))
  | _, _ => .error "AttributeError: value has no attribute get"

/-- Python iteration `for r in v`: lists yield their elements, strings their
one-character substrings, dicts their keys; other values raise `TypeError`. -/
def JVal.iterElems : JVal → Except String (List JVal)
  | .jarr xs => .ok xs
  | .jstr s => .ok (s.data.map (fun c => JVal.jstr (String.mk [c])))
  | .jobj fs => .ok (fs.map (fun p => JVal.jstr p.1))
  | .jbool _ => .error "TypeError: bool is not iterable"
  | .jnum _ => .error "TypeError: number is not iterable"
  | .jnull => .error "TypeError: NoneType is not iterable"

/-- Line 146, `next((r for r in results_data['results'] if r['file'] ==
selected_file), None)`.  The generator is lazy: the scan stops at the first
match, so entries after the first match are never inspected. -/
def firstMatch : List JVal → String → Except String (Option JVal)
  | [], _ => .ok none
  | r :: rs, x =>
    match r.getItem "file" with
    | .error e => .error e
    | .ok v => if v.eqStr x then .ok (some r) else firstMatch rs x

/-- Lines 144-146: the record matcher.  `file_result` starts as `None`; it is
reassigned only under `if results_data and 'results' in results_data:`, in
which case the generator of `firstMatch` runs over
`results_data['results']`. -/
def fileResult : Option JVal → String → Except String (Option JVal)
  | none, _ => .ok none
  | some rd, selected_file =>
    if rd.truthy then
      match rd.hasKey "results" with
      | .error e => .error e
      | .ok false => .ok none
      | .ok true =>
        match rd.getItem "results" with
        | .error e => .error e
        | .ok rs =>
          match rs.iterElems with
          | .error e => .error e
          | .ok elems => firstMatch elems selected_file
    else .ok none

/-- `r['file']` succeeds on the entry `r` (it is a dict with a `file` key). -/
def hasFileKey (r : JVal) : Bool :=
  match r.getItem "file" with
  | .ok _ => true
  | .error _ => false

/-- The predicate of the generator: `r['file'] == selected_file`, read as a
total function (`false` where the lookup would raise). -/
def matchesFile (r : JVal) (x : String) : Bool :=
  match r.getItem "file" with
  | .ok v => v.eqStr x
  | .error _ => false

theorem firstMatch_eq_find (rs : List JVal) (x : String)
    (hwf : ∀ r ∈ rs, hasFileKey r = true) :
    firstMatch rs x = .ok (rs.find? (fun r => matchesFile r x)) := by
  induction rs with
  | nil => rfl
  | cons r rs ih =>
    have hr : hasFileKey r = true := hwf r (List.mem_cons_self r rs)
    cases hv : r.getItem "file" with
    | error e =>
      simp [hasFileKey, hv] at hr
    | ok v =>
      have hm : matchesFile r x = v.eqStr x := by
        simp [matchesFile, hv]
      by_cases hvx : v.eqStr x = true
      · simp [firstMatch, hv, hvx, List.find?, hm]
      · have hvx' : v.eqStr x = false := Bool.eq_false_iff.mpr hvx
        have ihr := ih (fun r' hr' => hwf r' (List.mem_cons_of_mem r hr'))
        simp [firstMatch, hv, hvx', List.find?_cons, hm, ihr]

theorem fileResult_ok_of_wf (fs : List (String × JVal)) (rs : List JVal)
    (x : String)
    (hres : (JVal.jobj fs).getItem "results" = .ok (JVal.jarr rs))
    (hwf : ∀ r ∈ rs, hasFileKey r = true) :
    fileResult (some (JVal.jobj fs)) x =
      .ok (rs.find? (fun r => matchesFile r x)) := by
  have hfind : fs.find? (fun p => p.1 == "results") ≠ none := by
    intro hnone
    simp [JVal.getItem, hnone] at hres
  have hne : fs ≠ [] := by
    intro h
    apply hfind
    rw [h]
    rfl
  have htruthy : (JVal.jobj fs).truthy = true := by
    simp [JVal.truthy, List.isEmpty_iff, hne]
  have hkey : (JVal.jobj fs).hasKey "results" = .ok true := by
    cases hf : fs.find? (fun p => p.1 == "results") with
    | none => exact absurd hf hfind
    | some p =>
      have hp := List.find?_some hf
      have hmem := List.mem_of_find?_eq_some hf
      simp only [JVal.hasKey]
      congr 1
      rw [List.any_eq_true]
      exact ⟨p, hmem, hp⟩
  simp only [fileResult, htruthy, hkey, if_pos, hres, JVal.iterElems]
  exact firstMatch_eq_find rs x hwf

/-- When the payload dict has no `results` key (or is empty, hence falsy),
the matcher leaves `file_result = None`. -/
theorem fileResult_none_of_no_results (gs : List (String × JVal)) (x : String)
    (hno : gs.find? (fun p => p.1 == "results") = none) :
    fileResult (some (JVal.jobj gs)) x = .ok none := by
  by_cases hg : (JVal.jobj gs).truthy = true
  · have hkey : (JVal.jobj gs).hasKey "results" = .ok false := by
      simp only [JVal.hasKey]
      congr 1
      rw [Bool.eq_false_iff]
      intro hany
      rcases List.any_eq_true.mp hany with ⟨p, hp, hpk⟩
      have := List.find?_eq_none.mp hno p hp
      exact this hpk
    simp [fileResult, hg, hkey]
  · have hg' : (JVal.jobj gs).truthy = false := Bool.eq_false_iff.mpr hg
    simp [fileResult, hg']

/-- One scanning step per character of Python's `str.replace(pat, rep)`,
which replaces every non-overlapping occurrence left to right.  `fuel`
bounds the recursion; the wrapper always supplies more fuel than the length
of the scanned list, so the `0` case is never reached from `pyReplace`. -/
def replaceAllAux (pat rep : List Char) : Nat → List Char → List Char
  | 0, s => s
  | _ + 1, [] => []
  | fuel + 1, c :: cs =>
    if pat.isPrefixOf (c :: cs) && !pat.isEmpty then
      rep ++ replaceAllAux pat rep fuel (cs.drop (pat.length - 1))
    else
      c :: replaceAllAux pat rep fuel cs

/-- Python `s.replace(pat, rep)` (lines 68, 74 and 172 of the source); all
patterns used by the program are non-empty. -/
def pyReplace (s pat rep : String) : String :=
  String.mk (replaceAllAux pat.data rep.data (s.data.length + 1) s.data)

/-- Python `s.endswith(suffix)` (line 67). -/
def endswith (s suf : String) : Bool := suf.data.isSuffixOf s.data

/-- Python `<=` on strings: lexicographic comparison by code point. -/
def charListLe : List Char → List Char → Bool
  | [], _ => true
  | _ :: _, [] => false
  | a :: as, b :: bs =>
    if a < b then true else if b < a then false else charListLe as bs

/-- The order by which Python's `sorted` arranges the catalog (line 70). -/
def pyLe (s t : String) : Prop := charListLe s.data t.data = true

instance : DecidableRel pyLe := fun s t => by
  unfold pyLe
  infer_instance

theorem charListLe_total : ∀ a b : List Char,
    charListLe a b = true ∨ charListLe b a = true
  | [], _ => .inl rfl
  | _ :: _, [] => .inr rfl
  | a :: as, b :: bs => by
    by_cases h1 : a < b
    · left
      simp [charListLe, h1]
    · by_cases h2 : b < a
      · right
        simp [charListLe, h2]
      · rcases charListLe_total as bs with h | h <;>
          [left; right] <;> simp [charListLe, h1, h2, h]

theorem charListLe_trans : ∀ {a b c : List Char},
    charListLe a b = true → charListLe b c = true → charListLe a c = true
  | [], _, _, _, _ => rfl
  | _ :: _, [], _, hab, _ => by simp [charListLe] at hab
  | _ :: _, _ :: _, [], _, hbc => by simp [charListLe] at hbc
  | a :: as, b :: bs, c :: cs, hab, hbc => by
    by_cases h1 : a < b
    · by_cases h2 : b < c
      · simp [charListLe, lt_trans h1 h2]
      · by_cases h3 : c < b
        · simp [charListLe, h2, h3] at hbc
        · have : b = c := le_antisymm (not_lt.mp h3) (not_lt.mp h2)
          subst this
          simp [charListLe, h1]
    · by_cases h4 : b < a
      · simp [charListLe, h1, h4] at hab
      · have hba : a = b := le_antisymm (not_lt.mp h4) (not_lt.mp h1)
        subst hba
        by_cases h2 : a < c
        · simp [charListLe, h2]
        · by_cases h3 : c < a
          · simp [charListLe, h2, h3] at hbc
          · have : a = c := le_antisymm (not_lt.mp h3) (not_lt.mp h2)
            subst this
            simp [charListLe, lt_irrefl] at hab hbc ⊢
            exact charListLe_trans hab hbc

instance : IsTotal String pyLe := ⟨fun s t => charListLe_total s.data t.data⟩

instance : IsTrans String pyLe := ⟨fun _ _ _ => charListLe_trans⟩

/-- `charListLe` agrees with the lexicographic strict order: it denies
exactly the inverse `Lex` relation. -/
theorem charListLe_iff_not_lex : ∀ a b : List Char,
    charListLe a b = true ↔ ¬ List.Lex (· < ·) b a
  | [], b => by
    constructor
    · intro _ h
      cases h
    · intro _
      rfl
  | a :: as, [] => by
    constructor
    · intro h
      simp [charListLe] at h
    · intro h
      exact absurd List.Lex.nil h
  | a :: as, b :: bs => by
    by_cases h1 : a < b
    · simp only [charListLe, if_pos h1, true_iff]
      intro h
      cases h with
      | cons h => exact lt_irrefl a h1
      | rel h => exact lt_asymm h1 h
    · by_cases h2 : b < a
      · have hlex : List.Lex (· < ·) (b :: bs) (a :: as) := List.Lex.rel h2
        simp only [charListLe, if_neg h1, if_pos h2]
        simp [hlex]
      · have hab : a = b := le_antisymm (not_lt.mp h2) (not_lt.mp h1)
        subst hab
        rw [show charListLe (a :: as) (a :: bs) = charListLe as bs by
          simp [charListLe, lt_irrefl]]
        rw [charListLe_iff_not_lex as bs]
        constructor
        · intro h hlex
          cases hlex with
          | cons h' => exact h h'
          | rel h' => exact lt_irrefl a h'
        · intro h h'
          exact h (List.Lex.cons h')

/-- `pyLe` is exactly the `≤` of the `String` linear order (both are
lexicographic by code point), so Python's `sorted` sorts by `≤`. -/
theorem pyLe_iff_le (s t : String) : pyLe s t ↔ s ≤ t := by
  rw [String.le_iff_toList_le, ← not_lt]
  unfold pyLe
  rw [charListLe_iff_not_lex]
  constructor
  · intro h hlt
    exact h hlt
  · intro h hlex
    exact h hlex

/-- Lines 59-70, `get_available_files`: `None` models a non-existent
directory (`os.path.exists` false), `some entries` the `os.listdir` listing.
Python appends `file.replace("_visualization.png", "") + ".txt"` for every
entry ending in `_visualization.png` and returns `sorted(files)`. -/
def get_available_files : Option (List String) → List String
  | none => []
  | some entries =>
    List.insertionSort pyLe
      ((entries.filter (fun f => endswith f "_visualization.png")).map
        (fun f => pyReplace f "_visualization.png" "" ++ ".txt"))

theorem replaceAllAux_nil (pat rep : List Char) (fuel : Nat) :
    replaceAllAux pat rep fuel [] = [] := by
  cases fuel <;> rfl

/-- `pat` has no nonempty proper border: no nonempty strict prefix of `pat`
is also a suffix of `pat`.  Both patterns the program strips or replaces
(`"_visualization.png"` and `".txt"`) are borderless, their first character
occurring nowhere later in them. -/
def Borderless (pat : List Char) : Prop :=
  ∀ k < pat.length, 0 < k → ¬ pat.take k <:+ pat

instance : ∀ l₁ l₂ : List Char, Decidable (l₁ <:+ l₂) := fun l₁ l₂ =>
  decidable_of_iff (l₁.isSuffixOf l₂ = true) List.isSuffixOf_iff_suffix

instance : DecidablePred Borderless := fun pat => by
  unfold Borderless
  infer_instance

/-- A borderless pattern cannot match strictly before the boundary of
`b ++ pat` when it does not occur inside `b`: the scanner's prefix test
fails while any part of `b` remains. -/
theorem pat_not_isPrefixOf_append (pat b : List Char) (hbl : Borderless pat)
    (hb : b ≠ []) (hinf : ¬ pat <:+: b) :
    pat.isPrefixOf (b ++ pat) = false := by
  cases hv : pat.isPrefixOf (b ++ pat) with
  | false => rfl
  | true =>
    exfalso
    have hpre : pat <+: b ++ pat := List.isPrefixOf_iff_prefix.mp hv
    have htake : pat = (b ++ pat).take pat.length :=
      List.prefix_iff_eq_take.mp hpre
    by_cases hlen : pat.length ≤ b.length
    · rw [List.take_append_of_le_length hlen] at htake
      have hpb : pat <+: b := List.prefix_iff_eq_take.mpr htake
      rcases hpb with ⟨t, ht⟩
      exact hinf ⟨[], t, by simpa using ht⟩
    · push_neg at hlen
      have hbpos : 0 < b.length := List.length_pos.mpr hb
      have hkpos : 0 < pat.length - b.length := Nat.sub_pos_of_lt hlen
      have hklt : pat.length - b.length < pat.length := by omega
      rw [List.take_append_eq_append_take,
        List.take_of_length_le (le_of_lt hlen)] at htake
      exact hbl (pat.length - b.length) hklt hkpos ⟨b, htake.symm⟩

/-- Scanning `b ++ pat` with a borderless, non-empty pattern that does not
occur in `b` replaces exactly the final occurrence:
`(b + pat).replace(pat, rep) == b + rep` in Python terms. -/
theorem replaceAllAux_append (pat rep : List Char) (hpat : pat ≠ [])
    (hbl : Borderless pat) :
    ∀ b : List Char, ¬ pat <:+: b → ∀ fuel, b.length < fuel →
      replaceAllAux pat rep fuel (b ++ pat) = b ++ rep := by
  intro b
  induction b with
  | nil =>
    intro _ fuel hfuel
    cases fuel with
    | zero => omega
    | succ f =>
      cases hp : pat with
      | nil => exact absurd hp hpat
      | cons c cs =>
        subst hp
        have hself : (c :: cs).isPrefixOf (c :: cs) = true :=
          List.isPrefixOf_iff_prefix.mpr (List.prefix_refl _)
        simp only [List.nil_append, replaceAllAux, hself, List.isEmpty_cons,
          Bool.not_false, Bool.and_true, if_pos]
        rw [show (c :: cs).length - 1 = cs.length from rfl, List.drop_length,
          replaceAllAux_nil]
        simp
  | cons d b' ih =>
    intro hinf fuel hfuel
    cases fuel with
    | zero => simp at hfuel
    | succ f =>
      have hnp : pat.isPrefixOf ((d :: b') ++ pat) = false :=
        pat_not_isPrefixOf_append pat (d :: b') hbl (by simp) hinf
      have hinf' : ¬ pat <:+: b' := fun h => hinf (List.infix_cons h)
      rw [List.cons_append] at hnp ⊢
      simp only [replaceAllAux, hnp, Bool.false_and, if_neg]
      simp only [Bool.false_eq_true, if_false]
      rw [ih hinf' f (by simpa using Nat.lt_of_succ_lt_succ hfuel)]
      rfl

/-- `pyReplace` on a string of the form `b ++ pat`, where the borderless
pattern `pat` does not occur inside `b`, yields `b ++ rep`. -/
theorem pyReplace_append (b pat rep : String) (hpat : pat.data ≠ [])
    (hbl : Borderless pat.data) (hinf : ¬ pat.data <:+: b.data) :
    pyReplace (b ++ pat) pat rep = b ++ rep := by
  apply String.ext
  show replaceAllAux pat.data rep.data ((b ++ pat).data.length + 1)
      (b ++ pat).data = (b ++ rep).data
  rw [String.data_append, String.data_append]
  exact replaceAllAux_append pat.data rep.data hpat hbl b.data hinf _
    (by simp [List.length_append]; omega)

theorem borderless_marker : Borderless "_visualization.png".data := by decide

theorem borderless_txt : Borderless ".txt".data := by decide

/-- Lines 72-77, `load_image`: the path probed for the visualization image,
`os.path.join(save_dir, filename.replace(".txt", "_visualization.png"))`.
Note Python's `replace` substitutes every occurrence of `".txt"`, not only
a trailing one. -/
def load_image_path (save_dir filename : String) : String :=
  save_dir ++ "/" ++ pyReplace filename ".txt" "_visualization.png"

/-- Line 172: the checkpoint path,
`os.path.join(SAVE_DIR, selected_file.replace(".txt", "_model.pth"))`. -/
def model_path (save_dir selected_file : String) : String :=
  save_dir ++ "/" ++ pyReplace selected_file ".txt" "_model.pth"

/-- Round a rational to the nearest integer, ties to the even integer — the
rounding of fixed-point float formatting.  Computed on the exact
numerator/denominator pair: `Int.fdiv` is floor division and `x.den` is
positive, so `n` is the floor of `x` and `r/den` its fractional part,
compared against one half by cross-multiplication. -/
def roundHalfEven (x : ℚ) : ℤ :=
  let den : ℤ := (x.den : ℤ)
  let n := Int.fdiv x.num den
  let r := x.num - n * den
  if den < 2 * r then n + 1
  else if 2 * r < den then n
  else if n % 2 = 0 then n else n + 1

/-- Left-pad a digit string with zeros to `k` digits. -/
def padZeros (k : Nat) (s : String) : String :=
  String.mk (List.replicate (k - s.length) '0') ++ s

/-- Python's fixed-point formatting `f"{x:.kf}"`, modelled on exact
rationals: scale by `10 ^ k` (as a numerator/denominator pair, keeping the
value exact), round half to even, and print the result in fixed point with
`k` digits after the decimal point — never scientific notation.  Python
applies this rounding to the binary64 value of `x`; on inputs whose decimal
rounding is representation-robust — in particular every value appearing in
the claims — the two agree. -/
def formatFixed (k : Nat) (x : ℚ) : String :=
  let m := roundHalfEven (Rat.divInt (x.num * (10 : ℤ) ^ k) (x.den : ℤ))
  let sign := if m < 0 then "-" else ""
  let a := m.natAbs
  if k = 0 then sign ++ toString a
  else sign ++ toString (a / 10 ^ k) ++ "." ++ padZeros k (toString (a % 10 ^ k))

/-- The five formatted summary cells of `display_metrics`. -/
structure MetricsDisplay where
  precisionS : String
  recallS : String
  f1S : String
  numAnomaliesS : String
  thresholdS : String

/-- Lines 79-91, `display_metrics`: the summary row renders the three
scores with `f"{...:.4f}"`, shows `num_anomalies` as a plain integer, and
renders the threshold as `f"{threshold}th"`. -/
def display_metrics (precision recallv f1 : ℚ)
    (num_anomalies threshold : ℤ) : MetricsDisplay :=
  { precisionS := formatFixed 4 precision,
    recallS := formatFixed 4 recallv,
    f1S := formatFixed 4 f1,
    numAnomaliesS := toString num_anomalies,
    thresholdS := toString threshold ++ "th" }

/-- The four formatted cells of the Additional Details panel. -/
structure DetailsDisplay where
  precisionD : String
  recallD : String
  f1D : String
  thresholdD : String

/-- Lines 165-169, the Additional Details panel: the three scores with
`f"{...:.6f}"` and the threshold as `f"{...}th percentile"`. -/
def details_display (precision recallv f1 : ℚ) (threshold : ℤ) :
    DetailsDisplay :=
  { precisionD := formatFixed 6 precision,
    recallD := formatFixed 6 recallv,
    f1D := formatFixed 6 f1,
    thresholdD := toString threshold ++ "th percentile" }

/-- Line 48: the results directory constant. -/
def SAVE_DIR : String := "checkpoints_multiscale_adaptive_3"

/-- The state of `results.json` on disk: absent, present and parseable
(with its parsed value), or present but not valid JSON (in which case
`json.load` raises `json.JSONDecodeError`). -/
inductive FileState where
  | absent : FileState
  | wellFormed : JVal → FileState
  | malformed : FileState

/-- Lines 50-57, `load_results`: `os.path.exists` then `json.load`.  The
function body contains no exception handler, so an unparseable file
propagates `JSONDecodeError` to the page script. -/
def load_results : FileState → Except String (Option JVal)
  | .absent => .ok none
  | .wellFormed j => .ok (some j)
  | .malformed => .error "JSONDecodeError"

/-- The file-system state the page script observes: whether `SAVE_DIR`
exists, its listing (meaningful only when it exists), the state of
`results.json` inside it, and existence of any other path
(`os.path.exists` for image and checkpoint files). -/
structure World where
  dirExists : Bool
  dirEntries : List String
  resultsJson : FileState
  fileExists : String → Bool

/-- One display or file-system event of a page render, in order of
occurrence.  `loadResultsCall` and `scanDirCall` record the invocations of
`load_results` and `get_available_files` (lines 105-106);
`checkModelExists` and `checkImageExists` record the `os.path.exists`
probes of lines 173 and 75. -/
inductive Event where
  | warnMissingDir : Event
  | infoSetup : Event
  | loadResultsCall : Event
  | scanDirCall : Event
  | warnNoResults : Event
  | configHeader : Event
  | configLine : String → Option JVal → Event
  | fileCount : Nat → Event
  | mainHeader : Event
  | selectedHeader : String → Event
  | metricsPanel : JVal → JVal → JVal → JVal → JVal → Event
  | detailsPanel : JVal → JVal → JVal → JVal → Event
  | checkModelExists : String → Event
  | checkpointNotice : String → Event
  | checkImageExists : String → Event
  | imageShown : String → Event
  | warnImageNotFound : Event
  | warnNoFiles : Event

/-- Lines 118-123: the sidebar configuration panel, shown when
`results_data and 'config' in results_data`; each of the five keys is read
with `config.get(key, 'N/A')` (`none` renders as the literal `N/A`). -/
def configLines (cfg : JVal) : Except String (List Event) :=
  match cfg.pyGet "multi_scale_windows" with
  | .error e => .error e
  | .ok v1 =>
    match cfg.pyGet "scale_weights" with
    | .error e => .error e
    | .ok v2 =>
      match cfg.pyGet "thresholds" with
      | .error e => .error e
      | .ok v3 =>
        match cfg.pyGet "num_epochs" with
        | .error e => .error e
        | .ok v4 =>
          match cfg.pyGet "num_prototypes" with
          | .error e => .error e
          | .ok v5 =>
            .ok [Event.configHeader,
              Event.configLine "multi_scale_windows" v1,
              Event.configLine "scale_weights" v2,
              Event.configLine "thresholds" v3,
              Event.configLine "num_epochs" v4,
              Event.configLine "num_prototypes" v5]

/-- Lines 113-128: the sidebar — optional configuration panel followed by
the processed-file count. -/
def sidebarEvents (rd : Option JVal) (nFiles : Nat) :
    Except String (List Event) :=
  match rd with
  | none => .ok [Event.fileCount nFiles]
  | some v =>
    if v.truthy then
      match v.hasKey "config" with
      | .error e => .error e
      | .ok true =>
        match v.getItem "config" with
        | .error e => .error e
        | .ok cfg =>
          match configLines cfg with
          | .error e => .error e
          | .ok cfgEvs => .ok (cfgEvs ++ [Event.fileCount nFiles])
      | .ok false => .ok [Event.fileCount nFiles]
    else .ok [Event.fileCount nFiles]

/-- Lines 151-169: the metrics summary and the Additional Details panel,
reached only with a matched record `r`.  Python evaluates the five
arguments of `display_metrics` left to right; `r.get('num_anomalies', 0)`
defaults to `0`. -/
def metricsEvents (r : JVal) : Except String (List Event) :=
  match r.getItem "precision" with
  | .error e => .error e
  | .ok pv =>
    match r.getItem "recall" with
    | .error e => .error e
    | .ok rv =>
      match r.getItem "f1" with
      | .error e => .error e
      | .ok fv =>
        match r.pyGet "num_anomalies" with
        | .error e => .error e
        | .ok nv =>
          match r.getItem "best_threshold" with
          | .error e => .error e
          | .ok tv =>
            .ok [Event.metricsPanel pv rv fv (nv.getD (JVal.jnum 0)) tv,
              Event.detailsPanel pv rv fv tv]

/-- The file the user picked in the selectbox of line 135: any of the
options `available_files`, indexed by `pickIdx` modulo the number of
options (the widget cannot yield anything outside its options; the default
selection is index 0). -/
def selectedFileOf (w : World) (pickIdx : Nat) : String :=
  let av := get_available_files (some w.dirEntries)
  av.getD (pickIdx % av.length) ""

/-- Lines 171-174: the checkpoint probe, and the success notice shown only
when `os.path.exists(model_path)` — both inside the `if file_result:`
branch. -/
def checkpointEvents (w : World) (selected : String) : List Event :=
  let mp := model_path SAVE_DIR selected
  if w.fileExists mp
  then [Event.checkModelExists mp, Event.checkpointNotice mp]
  else [Event.checkModelExists mp]

/-- Lines 178-184: the visualization probe of `load_image` and the image
or its not-found warning. -/
def imageEvents (w : World) (selected : String) : List Event :=
  let ip := load_image_path SAVE_DIR selected
  if w.fileExists ip
  then [Event.checkImageExists ip, Event.imageShown ip]
  else [Event.checkImageExists ip, Event.warnImageNotFound]

/-- Lines 137-184: the per-selection block — matched metrics with the
checkpoint probe and notice (lines 148-176), then the visualization image
(lines 178-184).  With no matched record the metrics section and the
checkpoint probe are skipped entirely and only the image section runs. -/
def selectedBlock (w : World) (rd : Option JVal) (selected : String) :
    Except String (List Event) :=
  match fileResult rd selected with
  | .error e => .error e
  | .ok none => .ok ([Event.selectedHeader selected] ++ imageEvents w selected)
  | .ok (some r) =>
    match metricsEvents r with
    | .error e => .error e
    | .ok mEvs =>
      .ok ([Event.selectedHeader selected] ++ mEvs ++
        checkpointEvents w selected ++ imageEvents w selected)

/-- Lines 94-186: one page render as the ordered trace of its events.
`st.stop()` (lines 102 and 110) ends the trace; an uncaught Python
exception aborts the render and is the `Except.error` case. -/
def render (w : World) (pickIdx : Nat) : Except String (List Event) :=
  if !w.dirExists then
    .ok [Event.warnMissingDir, Event.infoSetup]
  else
    match load_results w.resultsJson with
    | .error e => .error e
    | .ok rd =>
      let av := get_available_files (some w.dirEntries)
      let calls := [Event.loadResultsCall, Event.scanDirCall]
      if av.isEmpty && !(match rd with | none => false | some v => v.truthy)
      then
        .ok (calls ++ [Event.warnNoResults])
      else
        match sidebarEvents rd av.length with
        | .error e => .error e
        | .ok sb =>
          if av.isEmpty then
            .ok (calls ++ sb ++ [Event.warnNoFiles])
          else
            let selected := selectedFileOf w pickIdx
            if selected == "" then
              .ok (calls ++ sb ++ [Event.mainHeader])
            else
              match selectedBlock w rd selected with
              | .error e => .error e
              | .ok blk => .ok (calls ++ sb ++ [Event.mainHeader] ++ blk)

/-- Events that read the file system or `results.json`. -/
def Event.isRead : Event → Bool
  | .loadResultsCall => true
  | .scanDirCall => true
  | .checkModelExists _ => true
  | .checkImageExists _ => true
  | _ => false

/-- Events belonging to the model-checkpoint availability feature: the
`os.path.exists(model_path)` probe of line 173 and the notice of
line 174. -/
def Event.isCheckpointActivity : Event → Bool
  | .checkModelExists _ => true
  | .checkpointNotice _ => true
  | _ => false

/-- A render outcome free of checkpoint probes and notices (an aborted
render shows nothing, so it counts as free). -/
def noCheckpointActivity : Except String (List Event) → Bool
  | .error _ => true
  | .ok evs => evs.all (fun e => !e.isCheckpointActivity)

/-- The matcher finished without an exception. -/
def isOkE (r : Except String (Option JVal)) : Bool :=
  match r with
  | .ok _ => true
  | .error _ => false

theorem configLines_no_checkpoint (cfg : JVal) (evs : List Event)
    (h : configLines cfg = .ok evs) :
    evs.all (fun e => !e.isCheckpointActivity) = true := by
  cases cfg with
  | jobj fs =>
    simp only [configLines, JVal.pyGet] at h
    cases h
    rfl
  | jnull => simp [configLines, JVal.pyGet] at h
  | jbool b => simp [configLines, JVal.pyGet] at h
  | jnum q => simp [configLines, JVal.pyGet] at h
  | jstr s => simp [configLines, JVal.pyGet] at h
  | jarr xs => simp [configLines, JVal.pyGet] at h

theorem sidebarEvents_no_checkpoint (rd : Option JVal) (n : Nat)
    (sb : List Event) (h : sidebarEvents rd n = .ok sb) :
    sb.all (fun e => !e.isCheckpointActivity) = true := by
  cases rd with
  | none =>
    simp only [sidebarEvents] at h
    cases h
    rfl
  | some v =>
    simp only [sidebarEvents] at h
    by_cases hv : v.truthy = true
    · rw [if_pos hv] at h
      cases hk : v.hasKey "config" with
      | error e => simp [hk] at h
      | ok b =>
        cases b with
        | false =>
          simp only [hk] at h
          cases h
          rfl
        | true =>
          simp only [hk] at h
          cases hg : v.getItem "config" with
          | error e => simp [hg] at h
          | ok cfg =>
            simp only [hg] at h
            cases hc : configLines cfg with
            | error e => simp [hc] at h
            | ok cfgEvs =>
              simp only [hc] at h
              cases h
              rw [List.all_append]
              rw [configLines_no_checkpoint cfg cfgEvs hc]
              rfl
    · rw [if_neg hv] at h
      cases h
      rfl

/-- C1: for every payload object and catalog entry `x` (the entries of
`payload.results` being dicts carrying a `file` key, as the data model
prescribes), the record matcher yields exactly the first entry of
`payload.results` whose `file` attribute equals `x` by exact string
comparison — `List.find?` returns the first satisfying element in original
order, which also settles the two-duplicates case; and it yields no record
when the payload is unset, when the `results` key is missing, or (the
`find? = none` case) when no entry matches. -/
theorem c1_record_matcher_first_match
    (fs : List (String × JVal)) (rs : List JVal) (x : String)
    (hres : (JVal.jobj fs).getItem "results" = .ok (JVal.jarr rs))
    (hwf : ∀ r ∈ rs, hasFileKey r = true) :
    fileResult (some (JVal.jobj fs)) x =
      .ok (rs.find? (fun r => matchesFile r x)) ∧
    fileResult none x = .ok none ∧
    (∀ gs : List (String × JVal),
      gs.find? (fun p => p.1 == "results") = none →
      fileResult (some (JVal.jobj gs)) x = .ok none) :=
  ⟨fileResult_ok_of_wf fs rs x hres hwf, rfl,
    fun gs hno => fileResult_none_of_no_results gs x hno⟩

/-- C1 witness: a payload whose `results` holds three entries, the second
and third both matching `a.txt`; the matcher returns the second entry —
the first match in original order. -/
theorem c1_record_matcher_first_match_witness :
    fileResult (some (JVal.jobj [("results", JVal.jarr
      [JVal.jobj [("file", JVal.jstr "b.txt")],
       JVal.jobj [("file", JVal.jstr "a.txt"), ("precision", JVal.jnum 1)],
       JVal.jobj [("file", JVal.jstr "a.txt"), ("precision", JVal.jnum 2)]])]))
      "a.txt" =
    .ok (some (JVal.jobj [("file", JVal.jstr "a.txt"),
      ("precision", JVal.jnum 1)])) :=
  ((c1_record_matcher_first_match
    [("results", JVal.jarr
      [JVal.jobj [("file", JVal.jstr "b.txt")],
       JVal.jobj [("file", JVal.jstr "a.txt"), ("precision", JVal.jnum 1)],
       JVal.jobj [("file", JVal.jstr "a.txt"), ("precision", JVal.jnum 2)]])]
    [JVal.jobj [("file", JVal.jstr "b.txt")],
     JVal.jobj [("file", JVal.jstr "a.txt"), ("precision", JVal.jnum 1)],
     JVal.jobj [("file", JVal.jstr "a.txt"), ("precision", JVal.jnum 2)]]
    "a.txt" rfl (by decide)).1).trans rfl

/-- C8 counterexample: an entry of `payload.results` lacking the `file`
attribute makes `r['file']` raise `KeyError` — the record-matching
operation does raise an exception in that case, contrary to the claim. -/
theorem c8_matcher_exception_counterexample :
    fileResult (some (JVal.jobj [("results", JVal.jarr
      [JVal.jobj [("precision", JVal.jnum 1)]])])) "a.txt" =
    .error "KeyError: file" := rfl

/-- C8 amended: the record matcher never raises provided every entry of
`payload.results` is a dict with a `file` attribute; all absence cases —
unset payload, missing `results` key, no matching entry — resolve to the
explicit missing state `None`.  An entry without a `file` attribute,
however, raises `KeyError` (see the counterexample). -/
theorem c8_matcher_no_exception_amended
    (fs : List (String × JVal)) (rs : List JVal) (x : String)
    (hres : (JVal.jobj fs).getItem "results" = .ok (JVal.jarr rs))
    (hwf : ∀ r ∈ rs, hasFileKey r = true) :
    isOkE (fileResult (some (JVal.jobj fs)) x) = true ∧
    fileResult none x = .ok none ∧
    (∀ gs : List (String × JVal),
      gs.find? (fun p => p.1 == "results") = none →
      fileResult (some (JVal.jobj gs)) x = .ok none) := by
  refine ⟨?_, rfl, fun gs hno => fileResult_none_of_no_results gs x hno⟩
  rw [fileResult_ok_of_wf fs rs x hres hwf]
  rfl

/-- C8 witness: a well-formed payload with one non-matching entry; the
matcher completes without an exception. -/
theorem c8_matcher_no_exception_amended_witness :
    isOkE (fileResult (some (JVal.jobj [("results", JVal.jarr
      [JVal.jobj [("file", JVal.jstr "a.txt")]])])) "b.txt") = true :=
  (c8_matcher_no_exception_amended
    [("results", JVal.jarr [JVal.jobj [("file", JVal.jstr "a.txt")]])]
    [JVal.jobj [("file", JVal.jstr "a.txt")]]
    "b.txt" rfl (by decide)).1

/-- C6: the catalog builder returns the empty sequence for a non-existent
directory, and equally for an existing directory none of whose entries
ends in `_visualization.png`. -/
theorem c6_catalog_empty (entries : List String)
    (h : ∀ e ∈ entries, endswith e "_visualization.png" = false) :
    get_available_files none = [] ∧
    get_available_files (some entries) = [] := by
  refine ⟨rfl, ?_⟩
  have hfil : entries.filter (fun f => endswith f "_visualization.png") = [] := by
    rw [List.filter_eq_nil_iff]
    intro e he
    rw [h e he]
    simp
  simp [get_available_files, hfil]

/-- C6 witness: a missing directory, and a directory holding only
`results.json` and a checkpoint, both yield an empty catalog. -/
theorem c6_catalog_empty_witness :
    get_available_files none = [] ∧
    get_available_files (some ["results.json", "a_model.pth"]) = [] :=
  c6_catalog_empty ["results.json", "a_model.pth"] (by decide)

/-- C7 counterexample: with the results directory present and
`results.json` present but unparseable, the render aborts with
`JSONDecodeError` — a malformed file is not treated as an absent
payload. -/
theorem c7_load_results_counterexample :
    render (World.mk true [] FileState.malformed (fun _ => false)) 0 =
      .error "JSONDecodeError" := rfl

/-- C7 amended: `load_results` treats a missing `results.json` as an
absent payload (`None`) and returns the parsed value of a well-formed
file; but a present, malformed `results.json` raises `JSONDecodeError` —
`load_results` contains no exception handler — and the error aborts the
page render. -/
theorem c7_load_results_amended :
    load_results FileState.absent = .ok none ∧
    (∀ j : JVal, load_results (FileState.wellFormed j) = .ok (some j)) ∧
    load_results FileState.malformed = .error "JSONDecodeError" ∧
    (∀ w : World, ∀ k : Nat, w.dirExists = true →
      w.resultsJson = FileState.malformed →
      render w k = .error "JSONDecodeError") := by
  refine ⟨rfl, fun j => rfl, rfl, fun w k hdir hres => ?_⟩
  simp [render, hdir, hres, load_results]

/-- C7 witness: a world with a populated directory and a malformed
`results.json` aborts with `JSONDecodeError`. -/
theorem c7_load_results_amended_witness :
    render (World.mk true ["a_visualization.png"] FileState.malformed
      (fun _ => true)) 3 = .error "JSONDecodeError" :=
  c7_load_results_amended.2.2.2
    (World.mk true ["a_visualization.png"] FileState.malformed
      (fun _ => true)) 3 rfl rfl

theorem endswith_append (a b : String) : endswith (a ++ b) b = true := by
  unfold endswith
  rw [String.data_append]
  exact List.isSuffixOf_iff_suffix.mpr ⟨a.data, rfl⟩

/-- C2 counterexample: the two distinct listing entries
`x_visualization.png_visualization.png` and `x_visualization.png` both
derive the base name `x` (Python's `replace` removes every occurrence of
the marker), and `get_available_files` performs no deduplication: the
catalog comes out as `["x.txt", "x.txt"]`, which has a duplicate. -/
theorem c2_catalog_counterexample :
    get_available_files (some ["x_visualization.png_visualization.png",
      "x_visualization.png"]) = ["x.txt", "x.txt"] ∧
    ¬ (get_available_files (some ["x_visualization.png_visualization.png",
      "x_visualization.png"])).Nodup := by
  constructor
  · decide
  · decide

/-- C2 amended: the catalog is always sorted in the lexicographic string
order; and it contains no duplicates provided the listing itself has none
(as `os.listdir` guarantees) and no two distinct entries derive the same
base name — without that proviso duplicates do occur, since the builder
never deduplicates (see the counterexample). -/
theorem c2_catalog_sorted_amended (entries : List String)
    (hnd : entries.Nodup)
    (hinj : ∀ e1 ∈ entries, ∀ e2 ∈ entries,
      pyReplace e1 "_visualization.png" "" =
        pyReplace e2 "_visualization.png" "" → e1 = e2) :
    (∀ d : Option (List String),
      List.Sorted (· ≤ ·) (get_available_files d)) ∧
    (get_available_files (some entries)).Nodup := by
  constructor
  · intro d
    cases d with
    | none => exact List.sorted_nil
    | some l =>
      have hs := List.sorted_insertionSort pyLe
        ((l.filter (fun f => endswith f "_visualization.png")).map
          (fun f => pyReplace f "_visualization.png" "" ++ ".txt"))
      exact hs.imp (fun hab => (pyLe_iff_le _ _).mp hab)
  · simp only [get_available_files]
    rw [(List.perm_insertionSort pyLe _).nodup_iff]
    apply List.Nodup.map_on
    · intro x hx y hy hf
      have hx' := (List.mem_filter.mp hx).1
      have hy' := (List.mem_filter.mp hy).1
      apply hinj x hx' y hy'
      have hdata : (pyReplace x "_visualization.png" "").data ++ ".txt".data =
          (pyReplace y "_visualization.png" "").data ++ ".txt".data := by
        rw [← String.data_append, ← String.data_append, hf]
      exact String.ext (List.append_cancel_right hdata)
    · exact List.Nodup.filter _ hnd

/-- C2 witness: a two-entry listing with distinct base names yields a
duplicate-free catalog. -/
theorem c2_catalog_sorted_amended_witness :
    (get_available_files
      (some ["b_visualization.png", "a_visualization.png"])).Nodup :=
  (c2_catalog_sorted_amended ["b_visualization.png", "a_visualization.png"]
    (by decide) (by decide)).2

/-- C4 counterexample: for the catalog entry `a.txt.txt` — base name
`n = "a.txt"`, which contains `".txt"` — Python's replace-all substitutes
both occurrences, so the derived image path ends in
`a_visualization.png_visualization.png` rather than
`a.txt_visualization.png`, and likewise for the checkpoint path. -/
theorem c4_suffix_counterexample :
    endswith (load_image_path SAVE_DIR ("a.txt" ++ ".txt"))
      ("a.txt" ++ "_visualization.png") = false ∧
    endswith (model_path SAVE_DIR ("a.txt" ++ ".txt"))
      ("a.txt" ++ "_model.pth") = false := by
  constructor
  · decide
  · decide

/-- C4 amended: for a catalog entry `n ++ ".txt"` whose stem `n` does not
contain `".txt"` as a substring, the derived image path ends with
`n ++ "_visualization.png"` and the derived checkpoint path ends with
`n ++ "_model.pth"`; when `n` does contain `".txt"`, the replace-all
derivation breaks the round trip (see the counterexample). -/
theorem c4_suffix_roundtrip_amended (dir n : String)
    (hn : ¬ ".txt".data <:+: n.data) :
    endswith (load_image_path dir (n ++ ".txt"))
      (n ++ "_visualization.png") = true ∧
    endswith (model_path dir (n ++ ".txt")) (n ++ "_model.pth") = true := by
  have h1 : pyReplace (n ++ ".txt") ".txt" "_visualization.png" =
      n ++ "_visualization.png" :=
    pyReplace_append n ".txt" "_visualization.png" (by decide)
      borderless_txt hn
  have h2 : pyReplace (n ++ ".txt") ".txt" "_model.pth" =
      n ++ "_model.pth" :=
    pyReplace_append n ".txt" "_model.pth" (by decide) borderless_txt hn
  constructor
  · unfold load_image_path
    rw [h1]
    exact endswith_append (dir ++ "/") (n ++ "_visualization.png")
  · unfold model_path
    rw [h2]
    exact endswith_append (dir ++ "/") (n ++ "_model.pth")

/-- C4 witness: the well-behaved stem `a`. -/
theorem c4_suffix_roundtrip_amended_witness :
    endswith (load_image_path SAVE_DIR ("a" ++ ".txt"))
      ("a" ++ "_visualization.png") = true ∧
    endswith (model_path SAVE_DIR ("a" ++ ".txt"))
      ("a" ++ "_model.pth") = true :=
  c4_suffix_roundtrip_amended SAVE_DIR "a" (by decide)

/-- C3 counterexample: with the single listing entry
`x_visualization.png_visualization.png`, the catalog is `["x.txt"]` (the
replace-all strips both marker occurrences), yet the image file name that
`load_image` derives for `x.txt` — here `x_visualization.png`, whether one
replaces every `.txt` occurrence as the code does or only the trailing one
as the claim words it — is not among the directory entries: the catalog
entry dangles already at construction time. -/
theorem c3_dangling_counterexample :
    get_available_files (some ["x_visualization.png_visualization.png"]) =
      ["x.txt"] ∧
    load_image_path SAVE_DIR "x.txt" =
      SAVE_DIR ++ "/" ++ "x_visualization.png" ∧
    ¬ "x_visualization.png" ∈ ["x_visualization.png_visualization.png"] := by
  refine ⟨by decide, by decide, by decide⟩

/-- C3 amended: when every visualization entry of the listing has the
shape `b ++ "_visualization.png"` with a stem `b` containing neither
another `"_visualization.png"` nor any `".txt"`, each catalog name's
derived image file (the `load_image` derivation) is itself an entry of the
listing — no dangling catalog entries at construction time.  Without the
shape proviso the property fails (see the counterexample). -/
theorem c3_no_dangling_amended (entries : List String)
    (hshape : ∀ e ∈ entries, endswith e "_visualization.png" = true →
      ∃ b : String, e = b ++ "_visualization.png" ∧
        ¬ "_visualization.png".data <:+: b.data ∧
        ¬ ".txt".data <:+: b.data) :
    ∀ c ∈ get_available_files (some entries),
      pyReplace c ".txt" "_visualization.png" ∈ entries := by
  intro c hc
  simp only [get_available_files] at hc
  rw [(List.perm_insertionSort pyLe _).mem_iff] at hc
  rcases List.mem_map.mp hc with ⟨e, hef, hder⟩
  rcases List.mem_filter.mp hef with ⟨hmem, hend⟩
  rcases hshape e hmem hend with ⟨b, hb, hbm, hbt⟩
  subst hb
  have hstrip : pyReplace (b ++ "_visualization.png")
      "_visualization.png" "" = b ++ "" :=
    pyReplace_append b "_visualization.png" "" (by decide)
      borderless_marker hbm
  rw [hstrip, String.append_empty] at hder
  rw [← hder]
  rw [pyReplace_append b ".txt" "_visualization.png" (by decide)
    borderless_txt hbt]
  exact hmem

/-- C3 witness: the one-entry listing `a_visualization.png`, catalog entry
`a.txt`, whose derived image name is present. -/
theorem c3_no_dangling_amended_witness :
    pyReplace "a.txt" ".txt" "_visualization.png" ∈
      ["a_visualization.png"] := by
  apply c3_no_dangling_amended ["a_visualization.png"] ?_ "a.txt" (by decide)
  intro e he hend
  have he' : e = "a_visualization.png" := by simpa using he
  subst he'
  exact ⟨"a", by decide, by decide, by decide⟩

theorem imageEvents_no_checkpoint (w : World) (s : String) :
    (imageEvents w s).all (fun e => !e.isCheckpointActivity) = true := by
  simp only [imageEvents]
  split <;> rfl

/-- C5: the metric formatter — modelled over the exact rational values of
the decimal inputs (`mkRat 123456 1000000 = 0.123456`, `mkRat 1 2 = 0.5`,
`mkRat 999995 1000000 = 0.999995`) — renders precision, recall and f1
twice, through `formatFixed 4` in the summary row and `formatFixed 6` in
the detail panel (fixed point, round half to even, no scientific
notation); renders `num_anomalies` as a plain integer; and renders the
threshold as the integer followed by `th` in the summary and by
`th percentile` in the detail panel.  At the claimed input the summary
precision is `0.1235`, the detail precision `0.123456`, the thresholds
`95th` and `95th percentile`, and the anomaly count `3`. -/
theorem c5_metric_formatting :
    (display_metrics (mkRat 123456 1000000) (mkRat 1 2)
      (mkRat 999995 1000000) 3 95).precisionS = "0.1235" ∧
    (details_display (mkRat 123456 1000000) (mkRat 1 2)
      (mkRat 999995 1000000) 95).precisionD = "0.123456" ∧
    (display_metrics (mkRat 123456 1000000) (mkRat 1 2)
      (mkRat 999995 1000000) 3 95).thresholdS = "95th" ∧
    (details_display (mkRat 123456 1000000) (mkRat 1 2)
      (mkRat 999995 1000000) 95).thresholdD = "95th percentile" ∧
    (display_metrics (mkRat 123456 1000000) (mkRat 1 2)
      (mkRat 999995 1000000) 3 95).numAnomaliesS = "3" ∧
    (∀ p r f : ℚ, ∀ na t : ℤ,
      (display_metrics p r f na t).precisionS = formatFixed 4 p ∧
      (display_metrics p r f na t).recallS = formatFixed 4 r ∧
      (display_metrics p r f na t).f1S = formatFixed 4 f ∧
      (details_display p r f t).precisionD = formatFixed 6 p ∧
      (details_display p r f t).recallD = formatFixed 6 r ∧
      (details_display p r f t).f1D = formatFixed 6 f ∧
      (display_metrics p r f na t).numAnomaliesS = toString na ∧
      (display_metrics p r f na t).thresholdS = toString t ++ "th" ∧
      (details_display p r f t).thresholdD =
        toString t ++ "th percentile") :=
  ⟨by decide, by decide, by decide, by decide, by decide,
    fun p r f na t => ⟨rfl, rfl, rfl, rfl, rfl, rfl, rfl, rfl, rfl⟩⟩

/-- C9: when the results directory does not exist, the page render is
exactly the warning plus the setup instructions, and its trace contains
no read at all — no `load_results` call, no directory scan, and no image
or checkpoint existence probe. -/
theorem c9_missing_dir_stops (w : World) (k : Nat)
    (h : w.dirExists = false) :
    render w k = .ok [Event.warnMissingDir, Event.infoSetup] ∧
    (∀ evs, render w k = .ok evs →
      evs.all (fun e => !e.isRead) = true) := by
  have hr : render w k = .ok [Event.warnMissingDir, Event.infoSetup] := by
    simp [render, h]
  refine ⟨hr, fun evs hevs => ?_⟩
  rw [hr] at hevs
  cases hevs
  rfl

/-- C9 witness: a world with everything in place except the directory. -/
theorem c9_missing_dir_stops_witness :
    render (World.mk false ["a_visualization.png"]
      (FileState.wellFormed (JVal.jobj [("results", JVal.jarr [])]))
      (fun _ => true)) 0 = .ok [Event.warnMissingDir, Event.infoSetup] :=
  (c9_missing_dir_stops (World.mk false ["a_visualization.png"]
    (FileState.wellFormed (JVal.jobj [("results", JVal.jarr [])]))
    (fun _ => true)) 0 rfl).1

/-- C10: whenever the selected catalog entry has no matching record in the
payload (`file_result` resolves to `None`), the rendered page contains no
checkpoint existence probe and no checkpoint notice — regardless of the
on-disk situation (`w.fileExists`, and with it the existence of
`<name>_model.pth`, is unconstrained). -/
theorem c10_checkpoint_only_on_match (w : World) (k : Nat)
    (rd : Option JVal)
    (hload : load_results w.resultsJson = .ok rd)
    (hmatch : fileResult rd (selectedFileOf w k) = .ok none) :
    noCheckpointActivity (render w k) = true := by
  unfold render
  cases hdir : w.dirExists with
  | false => rfl
  | true =>
    simp only [hdir, Bool.not_true, Bool.false_eq_true, if_false, hload]
    split
    · rfl
    · split
      · rfl
      · rename_i sb hsb
        have hsbA := sidebarEvents_no_checkpoint rd _ sb hsb
        split
        · simp only [noCheckpointActivity, List.all_append, hsbA]
          rfl
        · split
          · simp only [noCheckpointActivity, List.all_append, hsbA]
            rfl
          · split
            · rfl
            · rename_i blk hblk
              unfold selectedBlock at hblk
              rw [hmatch] at hblk
              cases hblk
              simp only [noCheckpointActivity, List.all_append, hsbA,
                imageEvents_no_checkpoint]
              rfl

/-- C10 witness: a payload with an empty `results` array (so nothing
matches), every file present on disk — still no checkpoint probe or
notice in the trace. -/
theorem c10_checkpoint_only_on_match_witness :
    noCheckpointActivity (render (World.mk true ["a_visualization.png"]
      (FileState.wellFormed (JVal.jobj [("results", JVal.jarr [])]))
      (fun _ => true)) 0) = true :=
  c10_checkpoint_only_on_match (World.mk true ["a_visualization.png"]
    (FileState.wellFormed (JVal.jobj [("results", JVal.jarr [])]))
    (fun _ => true)) 0
    (some (JVal.jobj [("results", JVal.jarr [])])) rfl rfl
